import Mathlib

/-!
Verification of the broadcast-buffer ("Recorder"), line-reader and CONNECT-handler
logic of a small forward proxy (src/main.rs and src/recorder/mod.rs), via a shallow
embedding of the Rust code into Lean.

Bytes are modelled as `Nat` (always < 256 in use), Rust `VecDeque<u8>` and `Vec<u8>`
as `List Nat`, a stored `std::task::Waker` as `Option Unit`, and panicking code paths
as `Option.none` results.
-/

namespace Proxy

/-- A byte of the recorded stream. -/
abbrev Byte := Nat

/-- Mirrors `RecorderState` (src/recorder/mod.rs lines 8-11): one registered consumer's
read offset into the current queue plus its stored waker. -/
structure RecorderState where
  reader_length : Nat
  waker : Option Unit
deriving DecidableEq

/-- Mirrors `Recorder` (src/recorder/mod.rs lines 13-16).  `trimmed` is a specification
ghost field counting the bytes drained from the head of `buf` so far; it lets absolute
stream coordinates (total written, absolute consumer offsets) be stated.  The Rust
struct stores only `buf` and `states`. -/
structure Recorder where
  buf : List Byte
  states : List RecorderState
  trimmed : Nat
deriving DecidableEq

/-- Mirrors `Recorder::new`. -/
def Recorder.new : Recorder := ⟨[], [], 0⟩

/-- Total bytes ever written to the recorder, in absolute stream coordinates. -/
def Recorder.totalWritten (r : Recorder) : Nat := r.trimmed + r.buf.length

/-- Mirrors `RecorderReader` (src/recorder/mod.rs lines 27-30): the handle stores the
index it will use into `states`. -/
structure RecorderReader where
  index : Nat
deriving DecidableEq

/-- Mirrors `RecorderReader::new` (src/recorder/mod.rs lines 31-46): the returned
handle's `index` is `recorder.buf.len()`, and the pushed state has `reader_length: 0`
and no waker. -/
def RecorderReader.new (r : Recorder) : RecorderReader × Recorder :=
  let index := r.buf.length
  (⟨index⟩, { r with states := r.states ++ [⟨0, none⟩] })

/-- Mirrors `get_overlap` (src/recorder/mod.rs lines 48-63).  The Rust slice
`&buf[begin..end]` is `(buf.take end).drop begin`; the clamping guarantees
`begin ≤ end ≤ buf.len()` so the Rust indexing never panics. -/
def get_overlap (buf : List Byte) (buf_offset begin_ size : Nat) : List Byte :=
  let end_ := begin_ + size
  let b1 := if begin_ > buf_offset then begin_ - buf_offset else 0
  let e1 := if end_ > buf_offset then end_ - buf_offset else 0
  let b2 := if b1 > buf.length then buf.length else b1
  let e2 := if e1 > buf.length then buf.length else e1
  (buf.take e2).drop b2

/-- The poll result of a consumer read: `Poll::Pending`, or `Poll::Ready(Ok(()))`
together with the bytes placed into the output `ReadBuf`. -/
inductive Poll where
  | pending
  | ready (bytes : List Byte)
deriving DecidableEq

/-- Mirrors `RecorderReader::poll_read` (src/recorder/mod.rs lines 95-124).

`split` is the physical split point of the `VecDeque`'s two contiguous runs:
`as_slices` returns `(buf.take split, buf.drop split)` for some `split ≤ buf.length`
determined by the deque's internal layout.  `remaining` is `buf.remaining()` of the
output `ReadBuf` (the caller's `max_len`).  `none` models a Rust panic: the stored
index being out of bounds of `states`, or the `usize` subtraction
`buf.len() - reader_length` underflowing. -/
def RecorderReader.poll_read (self : RecorderReader) (r : Recorder)
    (split remaining : Nat) : Option (Poll × Recorder) :=
  match r.states[self.index]? with
  | none => none
  | some state =>
    if r.buf.length < state.reader_length then none
    else
      let n := r.buf.length - state.reader_length
      if n = 0 then
        some (.pending,
          { r with states := r.states.set self.index ⟨state.reader_length, some ()⟩ })
      else
        let n := min n remaining
        let front := r.buf.take split
        let back := r.buf.drop split
        let out := get_overlap front 0 state.reader_length n ++
          get_overlap back front.length state.reader_length n
        some (.ready out,
          { r with states := r.states.set self.index ⟨state.reader_length + n, state.waker⟩ })

/-- Minimum of a list of keys, mirroring `Iterator::min_by_key` over the consumers'
`reader_length` fields (`None` on an empty consumer table). -/
def minKey : List Nat → Option Nat
  | [] => none
  | x :: xs =>
    match minKey xs with
    | none => some x
    | some m => some (min x m)

/-- Smallest absolute consumer offset (ghost observer; `0` if no consumer). -/
def Recorder.minOffsetAbs (r : Recorder) : Nat :=
  r.trimmed + (minKey (r.states.map fun s => s.reader_length)).getD 0

/-- Mirrors `RecorderWriter::poll_write` (src/recorder/mod.rs lines 131-172):
append the bytes, take every waker, trim the queue head by the minimum consumer
offset and subtract it from every offset, then return `Ready(Ok(len))`.  `none`
models a panic (the explicit `panic!` on an empty input, or `drain` out of range). -/
def RecorderWriter.poll_write (r : Recorder) (buf : List Byte) : Option (Nat × Recorder) :=
  if buf.length = 0 then none
  else
    let buf1 := r.buf ++ buf
    let states1 := r.states.map fun s => (⟨s.reader_length, none⟩ : RecorderState)
    match minKey (states1.map fun s => s.reader_length) with
    | none => some (buf.length, { buf := buf1, states := states1, trimmed := r.trimmed })
    | some m =>
      if buf1.length < m then none
      else
        some (buf.length,
          { buf := buf1.drop m,
            states := states1.map fun s => (⟨s.reader_length - m, s.waker⟩ : RecorderState),
            trimmed := r.trimmed + m })

/-- Clamping both slice bounds at the list length does not change the slice. -/
theorem slice_clamp (l : List Byte) (a b : Nat) :
    (l.take (if b > l.length then l.length else b)).drop (if a > l.length then l.length else a)
      = (l.take b).drop a := by
  have hbif : (if b > l.length then l.length else b) = min b l.length := by split <;> omega
  have haif : (if a > l.length then l.length else a) = min a l.length := by split <;> omega
  rw [hbif, haif]
  have htake : l.take (min b l.length) = l.take b := by
    rcases le_or_lt b l.length with h | h
    · rw [Nat.min_eq_left h]
    · rw [Nat.min_eq_right (by omega), List.take_length, List.take_of_length_le (by omega)]
  rw [htake]
  rcases le_or_lt a l.length with h | h
  · rw [Nat.min_eq_left h]
  · rw [Nat.min_eq_right (by omega)]
    rw [List.drop_eq_nil_of_le (by simp only [List.length_take]; omega),
      List.drop_eq_nil_of_le (by simp only [List.length_take]; omega)]

/-- `get_overlap` is the slice of `buf` between `begin - buf_offset` and
`begin + size - buf_offset` (truncated subtraction, bounds clamped). -/
theorem get_overlap_eq (l : List Byte) (off b n : Nat) :
    get_overlap l off b n = (l.take (b + n - off)).drop (b - off) := by
  unfold get_overlap
  have h1 : (if b > off then b - off else 0) = b - off := by split <;> omega
  have h2 : (if b + n > off then b + n - off else 0) = b + n - off := by split <;> omega
  simp only [h1, h2]
  exact slice_clamp l (b - off) (b + n - off)

/-- The two `put_slice` calls of `poll_read` stitch the deque's front and back runs
into the contiguous run of `n` stream bytes starting at offset `rl`. -/
theorem overlap_stitch (buf : List Byte) (k rl n : Nat) (hk : k ≤ buf.length) :
    get_overlap (buf.take k) 0 rl n ++ get_overlap (buf.drop k) (buf.take k).length rl n
      = (buf.drop rl).take n := by
  have hlen : (buf.take k).length = k := by
    simp [List.length_take, Nat.min_eq_left hk]
  rw [get_overlap_eq, get_overlap_eq, hlen]
  simp only [Nat.sub_zero]
  have h0 : (buf.drop rl).take n = (buf.take (rl + n)).drop rl := by
    rw [List.take_drop]
  rw [h0]
  conv_rhs => rw [← List.take_append_drop k buf]
  rw [List.take_append_eq_append_take, List.drop_append_eq_append_drop]
  rw [hlen]
  congr 2
  rw [List.length_take, hlen]
  omega

/-- Full characterization of a successful (data-available) `poll_read`: helper shared
by the claim theorems about reading. -/
theorem poll_read_ready_spec (r : Recorder) (rd : RecorderReader) (st : RecorderState)
    (k maxLen : Nat)
    (hst : r.states[rd.index]? = some st)
    (havail : st.reader_length < r.buf.length)
    (hk : k ≤ r.buf.length) :
    rd.poll_read r k maxLen =
      some (.ready ((r.buf.drop st.reader_length).take
          (min (r.buf.length - st.reader_length) maxLen)),
        { r with states := (r.states.set rd.index
            ⟨st.reader_length + min (r.buf.length - st.reader_length) maxLen, st.waker⟩) }) := by
  unfold RecorderReader.poll_read
  rw [hst]
  simp only
  rw [if_neg (by omega), if_neg (by omega)]
  rw [overlap_stitch r.buf k st.reader_length
    (min (r.buf.length - st.reader_length) maxLen) hk]

/-- `minKey` of a non-empty list is some member that bounds every member below. -/
theorem minKey_spec (l : List Nat) (hne : l ≠ []) :
    ∃ m, minKey l = some m ∧ m ∈ l ∧ ∀ x ∈ l, m ≤ x := by
  induction l with
  | nil => exact absurd rfl hne
  | cons a t ih =>
    cases t with
    | nil =>
      exact ⟨a, rfl, List.mem_singleton.mpr rfl, by intro x hx; simp at hx; omega⟩
    | cons b t2 =>
      obtain ⟨m, hm, hmem, hle⟩ := ih (by simp)
      refine ⟨min a m, ?_, ?_, ?_⟩
      · show minKey (a :: b :: t2) = some (min a m)
        unfold minKey
        rw [hm]
      · rcases Nat.le_total a m with h | h
        · simp [Nat.min_eq_left h]
        · rw [Nat.min_eq_right h]
          exact List.mem_cons_of_mem a hmem
      · intro x hx
        rcases List.mem_cons.mp hx with h | h
        · omega
        · have := hle x h
          omega

/-- `minKey` commutes with truncated subtraction of a constant from every key. -/
theorem minKey_map_sub (l : List Nat) (c : Nat) :
    minKey (l.map fun x => x - c) = (minKey l).map fun x => x - c := by
  induction l with
  | nil => rfl
  | cons a t ih =>
    show minKey ((a - c) :: t.map fun x => x - c) = _
    unfold minKey
    rw [ih]
    cases h : minKey t with
    | none => rfl
    | some m =>
      simp only [Option.map_some]
      show some (min (a - c) (m - c)) = some (min a m - c)
      congr 1
      omega

/-- Setting an index of a list to the element it already holds is a no-op. -/
theorem set_eq_self_of_getElem {α : Type} (l : List α) (i : Nat) (x : α)
    (h : l[i]? = some x) : l.set i x = l := by
  induction l generalizing i with
  | nil => simp at h
  | cons a t ih =>
    cases i with
    | zero =>
      simp only [List.getElem?_cons_zero, Option.some.injEq] at h
      simp [h]
    | succ j =>
      simp only [List.getElem?_cons_succ] at h
      simp [ih j h]

/-- Full characterization of a non-degenerate `poll_write` on a well-formed recorder
with at least one consumer: helper shared by the claim theorems about writing. -/
theorem poll_write_spec (r : Recorder) (data : List Byte)
    (hd : data ≠ []) (hne : r.states ≠ [])
    (hwf : ∀ s ∈ r.states, s.reader_length ≤ r.buf.length) :
    ∃ m, minKey (r.states.map fun s => s.reader_length) = some m ∧
      m ≤ r.buf.length ∧
      RecorderWriter.poll_write r data = some (data.length,
        { buf := ((r.buf ++ data).drop m),
          states := (r.states.map fun s => (⟨s.reader_length - m, none⟩ : RecorderState)),
          trimmed := r.trimmed + m }) := by
  obtain ⟨m, hm, hmem, hle⟩ := minKey_spec (r.states.map fun s => s.reader_length)
    (by simpa using hne)
  obtain ⟨s0, hs0, hs0eq⟩ := List.mem_map.mp hmem
  have hmle : m ≤ r.buf.length := hs0eq ▸ hwf s0 hs0
  refine ⟨m, hm, hmle, ?_⟩
  unfold RecorderWriter.poll_write
  rw [if_neg (by simpa [List.length_eq_zero] using hd)]
  have hmap : ((r.states.map fun s => (⟨s.reader_length, none⟩ : RecorderState)).map
      fun s => s.reader_length) = r.states.map fun s => s.reader_length := by
    rw [List.map_map]; rfl
  dsimp only
  rw [hmap, hm]
  dsimp only
  rw [if_neg (by simp only [List.length_append]; omega)]
  congr 2
  rw [List.map_map]
  rfl

/-- C1: for every recorder state, every registered consumer with positive available
byte count, every physical split of the queue and every `max_len`, `poll_read`
completes without suspending, returns exactly `min(available, max_len)` bytes that are
the contiguous run of queue bytes starting at the consumer's offset (stitched across
the two physical runs), and advances the consumer's offset by exactly that count. -/
theorem poll_read_correct (r : Recorder) (rd : RecorderReader) (st : RecorderState)
    (k maxLen : Nat)
    (hst : r.states[rd.index]? = some st)
    (havail : st.reader_length < r.buf.length)
    (hk : k ≤ r.buf.length) :
    rd.poll_read r k maxLen =
      some (.ready ((r.buf.drop st.reader_length).take
          (min (r.buf.length - st.reader_length) maxLen)),
        { r with states := (r.states.set rd.index
            ⟨st.reader_length + min (r.buf.length - st.reader_length) maxLen, st.waker⟩) }) ∧
    ((r.buf.drop st.reader_length).take
        (min (r.buf.length - st.reader_length) maxLen)).length
      = min (r.buf.length - st.reader_length) maxLen := by
  refine ⟨poll_read_ready_spec r rd st k maxLen hst havail hk, ?_⟩
  simp only [List.length_take, List.length_drop]
  omega

/-- Witness for C1: consumer at offset 1 of queue `[1,2,3,4,5]` physically split as
`[1,2] / [3,4,5]`, reading at most 3 bytes, gets `[2,3,4]` and ends at offset 4. -/
theorem poll_read_correct_witness :
    RecorderReader.poll_read ⟨0⟩ ⟨[1, 2, 3, 4, 5], [⟨1, none⟩], 0⟩ 2 3 =
      some (.ready [2, 3, 4], ⟨[1, 2, 3, 4, 5], [⟨4, none⟩], 0⟩) ∧
    ([2, 3, 4] : List Byte).length = min 4 3 := by
  have h := poll_read_correct ⟨[1, 2, 3, 4, 5], [⟨1, none⟩], 0⟩ ⟨0⟩ ⟨1, none⟩ 2 3
    (by decide) (by decide) (by decide)
  refine ⟨h.1.trans (by decide), by decide⟩

/-- C10: whenever the consumer's available byte count is zero — no matter how much
output space the caller offers, and even though the producer may never write again —
`poll_read` stores a waker for the consumer and returns `Pending`; it never completes
with zero bytes, so the buffer never signals end-of-stream. -/
theorem poll_read_no_data_pends_stores_waker (r : Recorder) (rd : RecorderReader)
    (st : RecorderState) (k maxLen : Nat)
    (hst : r.states[rd.index]? = some st)
    (hempty : st.reader_length = r.buf.length) :
    rd.poll_read r k maxLen =
      some (.pending,
        { r with states := (r.states.set rd.index ⟨st.reader_length, some ()⟩) }) := by
  unfold RecorderReader.poll_read
  rw [hst]
  simp only
  rw [if_neg (by omega), if_pos (by omega)]

/-- Witness for C10: fully caught-up consumer on queue `[9]` gets `Pending` with its
waker stored, despite 5 bytes of output space. -/
theorem poll_read_no_data_pends_stores_waker_witness :
    RecorderReader.poll_read ⟨0⟩ ⟨[9], [⟨1, none⟩], 0⟩ 1 5 =
      some (.pending, ⟨[9], [⟨1, some ()⟩], 0⟩) := by
  have h := poll_read_no_data_pends_stores_waker ⟨[9], [⟨1, none⟩], 0⟩ ⟨0⟩ ⟨1, none⟩ 1 5
    (by decide) (by decide)
  exact h.trans (by decide)

/-- C8 counterexample: the claim says a read with `max_len = 0` returns zero bytes
without suspending "including when the consumer has no unread data available".  On a
freshly registered consumer with no data, `poll_read` with zero output space instead
stores a waker and returns `Pending`, because the `n == 0` suspension check precedes
the `min` with the output capacity. -/
theorem poll_read_len_zero_no_data_pends :
    RecorderReader.new Recorder.new = (⟨0⟩, ⟨[], [⟨0, none⟩], 0⟩) ∧
    RecorderReader.poll_read ⟨0⟩ ⟨[], [⟨0, none⟩], 0⟩ 0 0 =
      some (.pending, ⟨[], [⟨0, some ()⟩], 0⟩) := by decide

/-- C8 as amended: when the consumer has unread data available, a read with
`max_len = 0` completes without suspending, returns zero bytes, and leaves the
recorder (offset and waker included) exactly unchanged; with no data available it
suspends like any other read. -/
theorem poll_read_len_zero_with_data_noop (r : Recorder) (rd : RecorderReader)
    (st : RecorderState) (k : Nat)
    (hst : r.states[rd.index]? = some st)
    (havail : st.reader_length < r.buf.length)
    (hk : k ≤ r.buf.length) :
    rd.poll_read r k 0 = some (.ready [], r) := by
  have h := poll_read_ready_spec r rd st k 0 hst havail hk
  have hset : r.states.set rd.index ⟨st.reader_length, st.waker⟩ = r.states := by
    have h2 : (⟨st.reader_length, st.waker⟩ : RecorderState) = st := by cases st; rfl
    rw [h2]
    exact set_eq_self_of_getElem r.states rd.index st hst
  rw [h]
  simp only [Nat.min_zero, Nat.add_zero, List.take_zero, hset]

/-- Witness for C8's amended theorem: consumer at offset 0 of queue `[7]`, zero-length
read: zero bytes, state unchanged. -/
theorem poll_read_len_zero_with_data_noop_witness :
    RecorderReader.poll_read ⟨0⟩ ⟨[7], [⟨0, none⟩], 0⟩ 1 0 =
      some (.ready [], ⟨[7], [⟨0, none⟩], 0⟩) :=
  poll_read_len_zero_with_data_noop ⟨[7], [⟨0, none⟩], 0⟩ ⟨0⟩ ⟨0, none⟩ 1
    (by decide) (by decide) (by decide)

/-- C2 counterexample: the claimed invariant "retained length never exceeds
total_written − min(consumer offsets)" is not preserved by reads.  Reachable trace:
register one consumer on a fresh recorder, write `[42]`, then read 1 byte.  The
consumer's absolute offset reaches 1 = total written, yet the queue still retains 1
byte (trimming happens only at the next write). -/
theorem retained_exceeds_bound_after_read :
    RecorderReader.new Recorder.new = (⟨0⟩, ⟨[], [⟨0, none⟩], 0⟩) ∧
    RecorderWriter.poll_write ⟨[], [⟨0, none⟩], 0⟩ [42] = some (1, ⟨[42], [⟨0, none⟩], 0⟩) ∧
    RecorderReader.poll_read ⟨0⟩ ⟨[42], [⟨0, none⟩], 0⟩ 1 1 =
      some (.ready [42], ⟨[42], [⟨1, none⟩], 0⟩) ∧
    (⟨[42], [⟨1, none⟩], 0⟩ : Recorder).buf.length = 1 ∧
    Recorder.totalWritten ⟨[42], [⟨1, none⟩], 0⟩ - Recorder.minOffsetAbs ⟨[42], [⟨1, none⟩], 0⟩ = 0 ∧
    ¬ ((⟨[42], [⟨1, none⟩], 0⟩ : Recorder).buf.length ≤
        Recorder.totalWritten ⟨[42], [⟨1, none⟩], 0⟩ -
        Recorder.minOffsetAbs ⟨[42], [⟨1, none⟩], 0⟩) := by decide

/-- C2 as amended: after every write (to a well-formed recorder with at least one
consumer), the queue retains exactly the bytes from the minimum absolute consumer
offset up to the absolute write position: retained length + min offset = total
written, the minimum relative offset is reset to 0, and the write position advances
by the written length.  Reads do not change the retained bytes, so the equality can
lapse between a read and the next write (see the counterexample), and is
re-established by every write. -/
theorem write_restores_exact_retention (r : Recorder) (data : List Byte)
    (nw : Nat) (r' : Recorder)
    (hd : data ≠ []) (hne : r.states ≠ [])
    (hwf : ∀ s ∈ r.states, s.reader_length ≤ r.buf.length)
    (h : RecorderWriter.poll_write r data = some (nw, r')) :
    r'.buf.length + r'.minOffsetAbs = r'.totalWritten ∧
    minKey (r'.states.map fun s => s.reader_length) = some 0 ∧
    r'.totalWritten = r.totalWritten + data.length := by
  obtain ⟨m, hm, hmle, heq⟩ := poll_write_spec r data hd hne hwf
  rw [heq] at h
  obtain ⟨-, rfl⟩ := Prod.mk.injEq .. ▸ (Option.some.injEq _ _ ▸ h)
  have hmin0 : minKey ((r.states.map fun s =>
      (⟨s.reader_length - m, none⟩ : RecorderState)).map fun s => s.reader_length)
      = some 0 := by
    have h1 : ((r.states.map fun s => (⟨s.reader_length - m, none⟩ : RecorderState)).map
        fun s => s.reader_length) = (r.states.map fun s => s.reader_length).map
        fun x => x - m := by
      rw [List.map_map, List.map_map]
      rfl
    rw [h1, minKey_map_sub, hm]
    simp
  refine ⟨?_, hmin0, ?_⟩ <;>
    simp only [Recorder.minOffsetAbs, Recorder.totalWritten, hmin0, Option.getD_some,
      List.length_drop, List.length_append] <;>
    omega

/-- Witness for C2's amended theorem: one consumer at offset 0, write `[42]`:
retained 1 byte, min offset 0, total written 1. -/
theorem write_restores_exact_retention_witness :
    (⟨[42], [⟨0, none⟩], 0⟩ : Recorder).buf.length +
        Recorder.minOffsetAbs ⟨[42], [⟨0, none⟩], 0⟩ =
      Recorder.totalWritten ⟨[42], [⟨0, none⟩], 0⟩ ∧
    minKey ((⟨[42], [⟨0, none⟩], 0⟩ : Recorder).states.map fun s => s.reader_length) =
      some 0 ∧
    Recorder.totalWritten ⟨[42], [⟨0, none⟩], 0⟩ =
      Recorder.totalWritten ⟨[], [⟨0, none⟩], 0⟩ + ([42] : List Byte).length :=
  write_restores_exact_retention ⟨[], [⟨0, none⟩], 0⟩ [42] 1 ⟨[42], [⟨0, none⟩], 0⟩
    (by decide) (by decide) (by decide) (by decide)

/-- C3 (code bug): `RecorderReader::new` is specified to start the new consumer at the
current absolute write position (no replay).  The code instead pushes an entry with
`reader_length: 0` and returns a handle whose `index` is `buf.len()`.  Reachable
trace: register a consumer on a fresh recorder, write `[1,2]` (nothing trims), then
register a second consumer.  The second handle's index is 2 — out of bounds for the
2-entry consumer table, so its `poll_read` panics — and the entry actually pushed for
it has offset 0, so reading through it replays the pre-registration bytes `[1,2]`. -/
theorem register_consumer_replays_and_misindexes :
    RecorderReader.new Recorder.new = (⟨0⟩, ⟨[], [⟨0, none⟩], 0⟩) ∧
    RecorderWriter.poll_write ⟨[], [⟨0, none⟩], 0⟩ [1, 2] =
      some (2, ⟨[1, 2], [⟨0, none⟩], 0⟩) ∧
    RecorderReader.new ⟨[1, 2], [⟨0, none⟩], 0⟩ =
      (⟨2⟩, ⟨[1, 2], [⟨0, none⟩, ⟨0, none⟩], 0⟩) ∧
    (⟨[1, 2], [⟨0, none⟩, ⟨0, none⟩], 0⟩ : Recorder).states.length = 2 ∧
    (⟨[1, 2], [⟨0, none⟩, ⟨0, none⟩], 0⟩ : Recorder).buf.length = 2 ∧
    RecorderReader.poll_read ⟨2⟩ ⟨[1, 2], [⟨0, none⟩, ⟨0, none⟩], 0⟩ 2 10 = none ∧
    RecorderReader.poll_read ⟨1⟩ ⟨[1, 2], [⟨0, none⟩, ⟨0, none⟩], 0⟩ 2 10 =
      some (.ready [1, 2], ⟨[1, 2], [⟨0, none⟩, ⟨2, none⟩], 0⟩) := by decide

/-- Position of the first `\r\n` window, mirroring
`buf.windows(2).position(|w| w == [b'\r', b'\n'])` in `get_line_fro_vec`. -/
def findCRLF : List Byte → Option Nat
  | 13 :: 10 :: _ => some 0
  | _ :: rest => (findCRLF rest).map (· + 1)
  | [] => none

/-- Mirrors Rust `std::str::from_utf8` validity (well-formed UTF-8 per RFC 3629,
which is exactly what `from_utf8` accepts). -/
def isValidUtf8 : List Byte → Bool
  | [] => true
  | b :: rest =>
    if b ≤ 0x7F then isValidUtf8 rest
    else if 0xC2 ≤ b ∧ b ≤ 0xDF then
      match rest with
      | c1 :: rest2 => 0x80 ≤ c1 && c1 ≤ 0xBF && isValidUtf8 rest2
      | [] => false
    else if b = 0xE0 then
      match rest with
      | c1 :: c2 :: rest2 =>
        0xA0 ≤ c1 && c1 ≤ 0xBF && 0x80 ≤ c2 && c2 ≤ 0xBF && isValidUtf8 rest2
      | _ => false
    else if (0xE1 ≤ b ∧ b ≤ 0xEC) ∨ b = 0xEE ∨ b = 0xEF then
      match rest with
      | c1 :: c2 :: rest2 =>
        0x80 ≤ c1 && c1 ≤ 0xBF && 0x80 ≤ c2 && c2 ≤ 0xBF && isValidUtf8 rest2
      | _ => false
    else if b = 0xED then
      match rest with
      | c1 :: c2 :: rest2 =>
        0x80 ≤ c1 && c1 ≤ 0x9F && 0x80 ≤ c2 && c2 ≤ 0xBF && isValidUtf8 rest2
      | _ => false
    else if b = 0xF0 then
      match rest with
      | c1 :: c2 :: c3 :: rest2 =>
        0x90 ≤ c1 && c1 ≤ 0xBF && 0x80 ≤ c2 && c2 ≤ 0xBF && 0x80 ≤ c3 && c3 ≤ 0xBF &&
          isValidUtf8 rest2
      | _ => false
    else if 0xF1 ≤ b ∧ b ≤ 0xF3 then
      match rest with
      | c1 :: c2 :: c3 :: rest2 =>
        0x80 ≤ c1 && c1 ≤ 0xBF && 0x80 ≤ c2 && c2 ≤ 0xBF && 0x80 ≤ c3 && c3 ≤ 0xBF &&
          isValidUtf8 rest2
      | _ => false
    else if b = 0xF4 then
      match rest with
      | c1 :: c2 :: c3 :: rest2 =>
        0x80 ≤ c1 && c1 ≤ 0x8F && 0x80 ≤ c2 && c2 ≤ 0xBF && 0x80 ≤ c3 && c3 ≤ 0xBF &&
          isValidUtf8 rest2
      | _ => false
    else false

/-- The only failure of `get_line_fro_vec`: bytes before the delimiter are not UTF-8. -/
inductive GetLineError where
  | invalidUtf8
deriving DecidableEq

/-- Mirrors `get_line_fro_vec` (src/main.rs lines 39-47).  Returns the number of bytes
to drain and the line's bytes; `(0, [])` means no delimiter was found.  The Rust
function returns the decoded `String`; since UTF-8 decoding is injective we keep the
line as its bytes, after the same validity check. -/
def get_line_fro_vec (buf : List Byte) : Except GetLineError (Nat × List Byte) :=
  match findCRLF buf with
  | none => .ok (0, [])
  | some n =>
    if isValidUtf8 (buf.take n) then .ok (n + 2, buf.take n)
    else .error .invalidUtf8

/-- One source-pull iteration of `HttpReader::read_lines` (src/main.rs lines 64-67):
`resize(begin + 4096, 0)`, read `chunk` into the slice starting at `begin`, then
`truncate(buf.len() - (begin + n))`.  Since `buf.len() = begin + 4096` at that point,
the retained length is `4096 - n`, not the intended `begin + n`. -/
def read_lines_fill (buf chunk : List Byte) : List Byte :=
  ((buf ++ chunk) ++ List.replicate (4096 - chunk.length) 0).take (4096 - chunk.length)

/-- Fuel-indexed loop of `HttpReader::read_lines` (src/main.rs lines 53-69).  `src` is
the queue of pending source reads (each at most 4096 bytes); an exhausted `src` models
a closed source, whose every read returns 0 bytes — exactly the `Ok(0)` an async read
yields at end-of-stream.  Returns `none` when the loop has not returned within `fuel`
iterations, otherwise the returned line, the drained buffer and the remaining source
(or the propagated UTF-8 error). -/
def read_lines (fuel : Nat) (buf : List Byte) (src : List (List Byte)) :
    Option (Except GetLineError (List Byte × List Byte × List (List Byte))) :=
  match fuel with
  | 0 => none
  | fuel + 1 =>
    match get_line_fro_vec buf with
    | .error e => some (.error e)
    | .ok (0, _) =>
      read_lines fuel (read_lines_fill buf (src.headD [])) src.tail
    | .ok (n, line) => some (.ok (line, buf.drop n, src))

/-- A run of zero bytes contains no `\r\n` window. -/
theorem findCRLF_replicate_zero (n : Nat) : findCRLF (List.replicate n 0) = none := by
  induction n with
  | zero => rfl
  | succ m ih =>
    rw [List.replicate_succ]
    show (findCRLF (List.replicate m 0)).map (· + 1) = none
    rw [ih]
    rfl

/-- Helper: scanning an all-zeros 4096-byte pending buffer while the source keeps
returning empty reads never terminates — the buffer is a fixed point of the loop
body and never yields a line or an error. -/
theorem read_lines_zeros_eof_none (fuel : Nat) :
    read_lines fuel (List.replicate 4096 0) [] = none := by
  induction fuel with
  | zero => rfl
  | succ f ih =>
    have hline : get_line_fro_vec (List.replicate 4096 0) = .ok (0, []) := by
      unfold get_line_fro_vec
      rw [findCRLF_replicate_zero]
    have hfill : read_lines_fill (List.replicate 4096 0) [] = List.replicate 4096 0 := by
      show ((List.replicate 4096 0 ++ []) ++ List.replicate 4096 0).take 4096 =
        List.replicate 4096 0
      rw [List.append_nil, List.take_append_eq_append_take, List.length_replicate,
        Nat.sub_self, List.take_zero, List.append_nil, List.take_replicate, Nat.min_self]
    show read_lines (f + 1) (List.replicate 4096 0) [] = none
    unfold read_lines
    rw [hline]
    show read_lines f (read_lines_fill (List.replicate 4096 0) []) [] = none
    rw [hfill]
    exact ih

/-- Helper: starting from the empty pending buffer of a fresh `HttpReader`, a closed
source (every read empty) drives `read_lines` into the all-zeros fixed point, so the
loop never returns for any amount of fuel. -/
theorem read_lines_empty_eof_none (fuel : Nat) : read_lines fuel [] [] = none := by
  cases fuel with
  | zero => rfl
  | succ f =>
    have hfill : read_lines_fill [] [] = List.replicate 4096 0 := by
      show ((([] : List Byte) ++ []) ++ List.replicate 4096 0).take 4096 =
        List.replicate 4096 0
      rw [List.nil_append, List.nil_append, List.take_replicate, Nat.min_self]
    show read_lines (f + 1) [] [] = none
    unfold read_lines
    show read_lines f (read_lines_fill [] []) [] = none
    rw [hfill]
    exact read_lines_zeros_eof_none f

/-- `read_lines` eventually returns (a line or an error) on the given pending buffer
and source-read sequence. -/
def read_lines_completes (buf : List Byte) (src : List (List Byte)) : Prop :=
  ∃ fuel res, read_lines fuel buf src = some res

/-- C5 counterexample: the claim says end-of-source with an empty read and no complete
line pending makes `read_lines` fail with an I/O error.  With the empty pending buffer
and a closed source it never returns at all — in particular it never returns an
error (the code has no check for a 0-byte read). -/
theorem read_lines_eof_never_completes : ¬ read_lines_completes [] [] := by
  rintro ⟨fuel, res, h⟩
  rw [read_lines_empty_eof_none fuel] at h
  cases h

/-- C5 as amended: when the source signals end-of-source with empty reads while no
complete delimited line is pending, `read_lines` neither fails nor returns a partial
line: the loop never terminates (it keeps re-scanning and re-polling forever). -/
theorem read_lines_eof_loops (fuel : Nat) : read_lines fuel [] [] = none :=
  read_lines_empty_eof_none fuel

/-- C4 (code bug): after pulling a 1-byte chunk `[65]` into an empty pending buffer,
the spec says the reader appends only the byte actually read, leaving pending
`[65]`.  The mis-computed `truncate(buf.len() - (begin + n))` instead keeps
`4096 - n` bytes, leaving `[65]` followed by 4094 zero bytes of the `resize`
padding in the pending buffer. -/
theorem read_lines_fill_pads_with_zeros :
    read_lines_fill [] [65] = 65 :: List.replicate 4094 0 ∧
    read_lines_fill [] [65] ≠ [65] := by
  have h : read_lines_fill [] [65] = 65 :: List.replicate 4094 0 := by
    show (((65 : Byte) :: []) ++ List.replicate 4095 0).take 4095 =
      65 :: List.replicate 4094 0
    rw [List.cons_append, List.nil_append,
      show (4095 : Nat) = 4094 + 1 from rfl, List.take_succ_cons, List.take_replicate,
      Nat.min_eq_left (by omega)]
  refine ⟨h, ?_⟩
  rw [h]
  intro hc
  have h2 := congrArg List.length hc
  rw [List.length_cons, List.length_replicate] at h2
  exact absurd h2 (by decide)

/-- Mirrors Rust `char::is_whitespace`: the Unicode `White_Space` property
(TAB, LF, VT, FF, CR, SPACE, NEL, NBSP, U+1680, U+2000-U+200A, LINE SEPARATOR,
PARAGRAPH SEPARATOR, U+202F, U+205F, IDEOGRAPHIC SPACE). -/
def isRustWhitespace (c : Char) : Bool :=
  c == '\t' || c == '\n' || c.toNat == 0x0B || c.toNat == 0x0C || c == '\r' || c == ' ' ||
  c.toNat == 0x85 || c.toNat == 0xA0 || c.toNat == 0x1680 ||
  (0x2000 ≤ c.toNat && c.toNat ≤ 0x200A) ||
  c.toNat == 0x2028 || c.toNat == 0x2029 || c.toNat == 0x202F || c.toNat == 0x205F ||
  c.toNat == 0x3000

/-- Accumulator pass splitting a char list at whitespace (keeps empty pieces). -/
def splitWsAux : List Char → List Char → List (List Char)
  | [], cur => [cur.reverse]
  | c :: rest, cur =>
    if isRustWhitespace c then cur.reverse :: splitWsAux rest []
    else splitWsAux rest (c :: cur)

/-- Mirrors Rust `str::split_whitespace`: split on runs of Unicode whitespace,
discarding empty tokens. -/
def split_whitespace (l : List Char) : List (List Char) :=
  (splitWsAux l []).filter (fun t => t ≠ [])

/-- Accumulator pass splitting a char list at `:` (keeps empty pieces). -/
def splitColonAux : List Char → List Char → List (List Char)
  | [], cur => [cur.reverse]
  | c :: rest, cur =>
    if c = ':' then cur.reverse :: splitColonAux rest []
    else splitColonAux rest (c :: cur)

/-- Mirrors Rust `str::split(':')`: every `:`-separated piece, empties kept. -/
def split_colon (l : List Char) : List (List Char) := splitColonAux l []

/-- Mirrors Rust `str::parse::<u16>`: an optional leading `+`, then one or more ASCII
digits whose value fits in `u16`; anything else is an error. -/
def parse_u16 (s : List Char) : Option Nat :=
  let digits := match s with
    | '+' :: rest => rest
    | _ => s
  if digits = [] then none
  else if digits.all (fun c => c.isDigit) then
    let v := digits.foldl (fun a c => a * 10 + (c.toNat - 48)) 0
    if v ≤ 65535 then some v else none
  else none

/-- Mirrors `send_error` (src/main.rs lines 23-31): the response text written to the
client, `format!("HTTP/1.1 {code} Connection Established\r\n\r\n{body}")`. -/
def send_error (code : Nat) (body : List Char) : List Char :=
  (("HTTP/1.1 ".data ++ (Nat.repr code).data) ++
    (" Connection Established\r\n\r\n".data ++ body))

/-- Observable outcome of `handle_client`'s dispatch on the request line. -/
inductive HandlerResult where
  /-- A `send_error` response is written; the handler returns without any target
  connection attempt. -/
  | rejected (response : List Char)
  /-- The port failed to parse: `map_err(.. InvalidInput ..)?` propagates the error
  out of `handle_client`; nothing is written to the client and no target connection
  is attempted. -/
  | ioErrorNoResponse
  /-- `TcpStream::connect((host, port))` is attempted. -/
  | connect (host : List Char) (port : Nat)
deriving DecidableEq

/-- Target resolution inside `handle_client` (src/main.rs lines 145-152):
`split(':')`, first piece (or `""`) as host, second piece (or `"443"`) as port
string, parsed as `u16`. -/
def resolve_target (host_port : List Char) : HandlerResult :=
  let pieces := split_colon host_port
  let host := pieces.headD []
  let port_str := (pieces.drop 1).headD ("443".data)
  match parse_u16 port_str with
  | some p => .connect host p
  | none => .ioErrorNoResponse

/-- Modelled from the spec: "split the request target on the first `:` into host and
port; if no port is present, default to `443`; a non-numeric port fails with an
invalid-input error".  Under this reading the port is everything after the first
`:`.  Stated only to compare against `resolve_target` (claim C7). -/
def resolve_target_spec (host_port : List Char) : HandlerResult :=
  if host_port.contains ':' then
    let host := host_port.takeWhile (fun c => c ≠ ':')
    let port_str := (host_port.dropWhile (fun c => c ≠ ':')).tail
    match parse_u16 port_str with
    | some p => .connect host p
    | none => .ioErrorNoResponse
  else
    match parse_u16 ("443".data) with
    | some p => .connect host_port p
    | none => .ioErrorNoResponse

/-- Request-line dispatch of `handle_client` (src/main.rs lines 119-163): branch on
`starts_with("CONNECT ")`, then the three-token / `HTTP/1.1` check, then target
resolution.  The header-discard loop between the token check and target resolution
only reads and drops lines until an empty one; it is abstracted as having completed. -/
def handle_client (connect_line : List Char) : HandlerResult :=
  if ("CONNECT ".data).isPrefixOf connect_line then
    let parts := split_whitespace connect_line
    if parts.length ≠ 3 ∨ parts.getD 2 [] ≠ ("HTTP/1.1".data) then
      .rejected (send_error 400 ("Bad Request".data))
    else
      resolve_target (parts.getD 1 [])
  else
    .rejected (send_error 405 ("Method Not Allowed".data))

/-- A true `isPrefixOf` exhibits the list as prefix ++ remainder. -/
theorem isPrefixOf_eq_append : ∀ (p l : List Char), p.isPrefixOf l = true → ∃ t, l = p ++ t := by
  intro p
  induction p with
  | nil => exact fun l _ => ⟨l, rfl⟩
  | cons a as ih =>
    intro l hp
    cases l with
    | nil => simp [List.isPrefixOf] at hp
    | cons b bs =>
      simp only [List.isPrefixOf, Bool.and_eq_true, beq_iff_eq] at hp
      obtain ⟨t, ht⟩ := ih bs hp.2
      exact ⟨t, by rw [hp.1, ht]; rfl⟩

/-- Splitting a line that starts with `"CONNECT "` yields `"CONNECT"` as its first
token. -/
theorem split_ws_connect (t : List Char) :
    split_whitespace (("CONNECT ".data) ++ t) = ("CONNECT".data) :: split_whitespace t := rfl

/-- C9: for every request line whose first whitespace-separated token is not
`CONNECT`, the client receives exactly
`HTTP/1.1 405 Connection Established\r\n\r\nMethod Not Allowed` (the
"Connection Established" phrase is reused despite the 405 code) and no target
connection is attempted. -/
theorem non_connect_gets_405_exact (line : List Char)
    (h : (split_whitespace line).headD [] ≠ ("CONNECT".data)) :
    handle_client line = .rejected (send_error 405 ("Method Not Allowed".data)) := by
  have hpre : ¬ (("CONNECT ".data).isPrefixOf line = true) := by
    intro hp
    obtain ⟨t, rfl⟩ := isPrefixOf_eq_append _ _ hp
    apply h
    rw [split_ws_connect t]
    rfl
  unfold handle_client
  rw [if_neg hpre]

/-- Witness for C9: a `GET` request line gets the exact 405 response text. -/
theorem non_connect_gets_405_exact_witness :
    handle_client ("GET / HTTP/1.1".data) =
      .rejected (send_error 405 ("Method Not Allowed".data)) :=
  non_connect_gets_405_exact ("GET / HTTP/1.1".data) (by decide)

/-- C6 counterexample: the claim says every request line failing the three-token /
`HTTP/1.1` test gets a 400 "regardless of what the first token (the method) is".
`GET / HTTP/1.0` has three tokens with a wrong protocol token, yet the code branches
on `starts_with("CONNECT ")` first and answers 405, not 400. -/
theorem non_connect_malformed_gets_405 :
    (split_whitespace ("GET / HTTP/1.0".data)).length = 3 ∧
    (split_whitespace ("GET / HTTP/1.0".data)).getD 2 [] ≠ ("HTTP/1.1".data) ∧
    handle_client ("GET / HTTP/1.0".data) =
      .rejected (send_error 405 ("Method Not Allowed".data)) ∧
    .rejected (send_error 405 ("Method Not Allowed".data)) ≠
      HandlerResult.rejected (send_error 400 ("Bad Request".data)) := by decide

/-- C6 as amended: for every request line that starts with `"CONNECT "` but does not
split into exactly three whitespace tokens with the third equal to `HTTP/1.1`, the
handler responds 400 and terminates without attempting a target connection (lines not
starting with `"CONNECT "` instead get the 405 response — see C9). -/
theorem connect_malformed_gets_400 (line : List Char)
    (hpre : ("CONNECT ".data).isPrefixOf line = true)
    (hbad : (split_whitespace line).length ≠ 3 ∨
      (split_whitespace line).getD 2 [] ≠ ("HTTP/1.1".data)) :
    handle_client line = .rejected (send_error 400 ("Bad Request".data)) := by
  unfold handle_client
  rw [if_pos hpre]
  dsimp only
  rw [if_pos hbad]

/-- Witness for C6's amended theorem: `CONNECT a b c` (four tokens) gets 400. -/
theorem connect_malformed_gets_400_witness :
    handle_client ("CONNECT a b c".data) =
      .rejected (send_error 400 ("Bad Request".data)) :=
  connect_malformed_gets_400 ("CONNECT a b c".data) (by decide) (Or.inl (by decide))

example : split_whitespace ("CONNECT h:1\x0BHTTP/1.1".data) =
    [("CONNECT".data), ("h:1".data), ("HTTP/1.1".data)] := by decide
example : handle_client ("CONNECT h:1\x0BHTTP/1.1".data) = .connect ("h".data) 1 := by decide

/-- Unfolding of the `:`-splitter: first piece is the run before the first `:`, and
the remaining pieces are the split of what follows it. -/
theorem splitColonAux_eq (l : List Char) : ∀ cur, splitColonAux l cur =
    (cur.reverse ++ l.takeWhile (fun c => c ≠ ':')) ::
      (if l.dropWhile (fun c => c ≠ ':') = [] then []
       else splitColonAux ((l.dropWhile (fun c => c ≠ ':')).tail) []) := by
  induction l with
  | nil =>
    intro cur
    simp [splitColonAux]
  | cons c rest ih =>
    intro cur
    by_cases hc : c = ':'
    · rw [show splitColonAux (c :: rest) cur =
          (if c = ':' then cur.reverse :: splitColonAux rest []
           else splitColonAux rest (c :: cur)) from rfl]
      rw [if_pos hc, List.takeWhile_cons, List.dropWhile_cons]
      rw [show (decide (c ≠ ':')) = false by simp [hc]]
      simp
    · rw [show splitColonAux (c :: rest) cur =
          (if c = ':' then cur.reverse :: splitColonAux rest []
           else splitColonAux rest (c :: cur)) from rfl]
      rw [if_neg hc, List.takeWhile_cons, List.dropWhile_cons]
      rw [show (decide (c ≠ ':')) = true by simp [hc]]
      rw [ih (c :: cur)]
      simp

/-- C7 counterexample: for the target `h:1:2` the claim (split on the FIRST `:`)
demands an invalid-input failure, since the port `1:2` is non-numeric.  The code
splits on every `:` and takes only the piece between the first and second `:`, so it
connects to host `h`, port 1. -/
theorem resolve_target_ignores_second_colon :
    resolve_target ("h:1:2".data) = .connect ("h".data) 1 ∧
    resolve_target_spec ("h:1:2".data) = .ioErrorNoResponse ∧
    handle_client ("CONNECT h:1:2 HTTP/1.1".data) = .connect ("h".data) 1 := by decide

/-- C7 as amended: for every target, the host is the run before the first `:` and the
port string is the run between the first and the second `:` (anything after a second
`:` is ignored), defaulting to `443` when the target has no `:`; a port string that
is not a `u16` numeral yields the invalid-input failure, with no response sent (the
`ioErrorNoResponse` outcome). -/
theorem resolve_target_characterization (t : List Char) :
    resolve_target t =
      match parse_u16 (if t.dropWhile (fun c => c ≠ ':') = [] then ("443".data)
          else ((t.dropWhile (fun c => c ≠ ':')).tail.takeWhile (fun c => c ≠ ':'))) with
      | some p => HandlerResult.connect (t.takeWhile (fun c => c ≠ ':')) p
      | none => HandlerResult.ioErrorNoResponse := by
  unfold resolve_target split_colon
  rw [splitColonAux_eq]
  by_cases hd : t.dropWhile (fun c => c ≠ ':') = []
  · rw [if_pos hd, if_pos hd]
    simp
  · rw [if_neg hd, if_neg hd]
    rw [splitColonAux_eq]
    simp

example : resolve_target ("example.com".data) = .connect ("example.com".data) 443 := by decide
example : resolve_target ("h:abc".data) = .ioErrorNoResponse := by decide
example : parse_u16 ("70000".data) = none := by decide
example : get_overlap [1, 2, 3, 4, 5] 0 1 2 = [2, 3] := by decide
example : get_overlap [1, 2, 3, 4, 5] 2 3 2 = [2, 3] := by decide
example : get_overlap [1, 2, 3, 4, 5] 0 3 7 = [4, 5] := by decide
example : get_overlap [] 0 0 0 = [] := by decide
example : get_overlap [1, 2, 3, 4, 5] 0 2 0 = [] := by decide

end Proxy
